import Mathlib

/-!
Shallow embedding of the semantic story-matching subsystem of the repository
(`backend/services/story_matcher.py` and `backend/services/story_service.py`).

Story documents are modelled as association lists from string keys to a small
value type mirroring the JSON-ish values the Python code manipulates.  The
sentence-transformer model is an opaque encode function `String → Option (List ℚ)`
(`none` models both a raised exception and a `None` return).  Vector components
are modelled as exact rationals and similarity scores as real numbers; the
cosine similarity mirrors sklearn's `cosine_similarity`, including its
substitution of 1 for a zero norm (a zero vector therefore scores 0.0, it does
not raise) and its `ValueError` on a dimension mismatch, which the source
catches and turns into a per-candidate skip.
-/

/-- A stored field value: null, string, number, numeric array (an embedding),
string list (symptom tags) or an opaque document identifier. -/
inductive Val where
  | vnull
  | vstr (s : String)
  | vnum (q : ℚ)
  | varr (xs : List ℚ)
  | vstrs (xs : List String)
  | vid (n : ℕ)
deriving DecidableEq

/-- A story document: an association list with unique keys, modelling a Python
dict / MongoDB document. -/
abbrev Doc := List (String × Val)

/-- `d.get(k)` on a Python dict. -/
def getVal (d : Doc) (k : String) : Option Val := List.lookup k d

/-- `d.pop(k, None)`: remove key `k`. -/
def popDoc (d : Doc) (k : String) : Doc := d.filter (fun p => !(p.1 == k))

/-- `d[k] = v`: replace the value at `k` in place, or append the key. -/
def setVal (d : Doc) (k : String) (v : Val) : Doc :=
  if (getVal d k).isSome then d.map (fun p => bif p.1 == k then (k, v) else p)
  else d ++ [(k, v)]

/-- Python truthiness of a field value. -/
def pyTruthyV : Val → Bool
  | Val.vnull => false
  | Val.vstr s => !(s == "")
  | Val.vnum q => !(q == 0)
  | Val.varr xs => !xs.isEmpty
  | Val.vstrs xs => !xs.isEmpty
  | Val.vid _ => true

/-- Python truthiness of `d.get(k)` (absent key is falsy). -/
def pyTruthy : Option Val → Bool
  | none => false
  | some v => pyTruthyV v

/-- Python `str(v)` as used by the source (f-strings and `str(story["_id"])`).
`vid n` renders as the decimal string of the opaque id, an injective stand-in
for an ObjectId's hex form; the exact repr of lists is not needed by any
modelled flow and is approximated by a comma join. -/
def pyStr : Val → String
  | Val.vnull => "None"
  | Val.vstr s => s
  | Val.vnum q => toString q
  | Val.varr xs => String.intercalate ", " (xs.map toString)
  | Val.vstrs xs => String.intercalate ", " xs
  | Val.vid n => toString n

/-- The fixed theme vocabulary of `StoryMatcher._extract_key_themes`, in source
order (Python dicts iterate in insertion order). -/
def theme_keywords : List (String × List String) :=
  [("depression", ["depression", "depressed", "sad", "hopeless", "worthless", "empty", "dark"]),
   ("anxiety", ["anxiety", "anxious", "worried", "panic", "overwhelmed", "scared", "fear"]),
   ("isolation", ["lonely", "alone", "isolated", "no one", "support", "friends"]),
   ("sleep", ["sleep", "tired", "exhausted", "insomnia", "sleepless", "fatigue"]),
   ("feeding", ["breastfeeding", "feeding", "bottle", "latch", "milk", "nutrition"]),
   ("bonding", ["bond", "bonding", "connection", "attachment", "love", "feelings"]),
   ("identity", ["identity", "myself", "who am i", "lost", "changed", "person"]),
   ("relationship", ["partner", "husband", "relationship", "marriage", "spouse"]),
   ("support", ["help", "support", "therapy", "counselor", "treatment", "medication"]),
   ("recovery", ["better", "healing", "recovery", "improvement", "hope", "progress"]),
   ("guilt", ["guilt", "shame", "failure", "bad mother", "not enough"]),
   ("baby", ["baby", "newborn", "infant", "child", "crying", "care"])]

/-- `needle` starts the character list `hay`. -/
def chStarts : List Char → List Char → Bool
  | [], _ => true
  | _ :: _, [] => false
  | a :: as, b :: bs => a == b && chStarts as bs

/-- `needle` occurs somewhere in the character list. -/
def chHasSub (needle : List Char) : List Char → Bool
  | [] => needle.isEmpty
  | c :: t => chStarts needle (c :: t) || chHasSub needle t

/-- Python `needle in hay` on strings. -/
def pyInStr (needle hay : String) : Bool := chHasSub needle.data hay.data

/-- Python `s.lower()` (ASCII, which covers all inputs of this subsystem). -/
def pyLower (s : String) : String := String.mk (s.data.map Char.toLower)

/-- Python `not s.strip()`: the string is empty or all whitespace. -/
def pyStripEmpty (s : String) : Bool := s.data.all (fun c => c.isWhitespace)

/-- `StoryMatcher._extract_key_themes`: a theme is emitted iff one of its
keywords occurs as a substring of the lower-cased text, in vocabulary order. -/
def extract_key_themes (text : String) : List String :=
  (theme_keywords.filter (fun p => p.2.any (fun kw => pyInStr kw (pyLower text)))).map
    (fun p => p.1)

/-- One labelled field part of `create_story_embedding_text`
(`f"{label}: {story_doc[field]}"` guarded by truthiness). -/
def fieldPart (d : Doc) (label field : String) : List String :=
  match getVal d field with
  | some v => if pyTruthyV v then [label ++ ": " ++ pyStr v] else []
  | none => []

/-- A truthy `key_symptoms` value that is not a list of strings makes Python's
`", ".join(...)` raise, which the source converts to its error sentinel. -/
def symptomBad (d : Doc) : Bool :=
  match getVal d "key_symptoms" with
  | some (Val.vstrs _) => false
  | some v => pyTruthyV v
  | none => false

/-- A truthy non-string `generated_story` makes `len`/slicing raise, which the
source converts to its error sentinel. -/
def narrativeBad (d : Doc) : Bool :=
  match getVal d "generated_story" with
  | some (Val.vstr _) => false
  | some v => pyTruthyV v
  | none => false

/-- The `Symptoms:` part of `create_story_embedding_text`. -/
def symptomPart (d : Doc) : List String :=
  match getVal d "key_symptoms" with
  | some (Val.vstrs xs) =>
    if xs.isEmpty then [] else ["Symptoms: " ++ String.intercalate ", " xs]
  | _ => []

/-- The `Story:` part of `create_story_embedding_text`: the narrative truncated
to 500 characters with `"..."` appended when cut. -/
def storyPart (d : Doc) : List String :=
  match getVal d "generated_story" with
  | some (Val.vstr s) =>
    if s == "" then []
    else if s.length > 500 then ["Story: " ++ (s.take 500 ++ "...")]
    else ["Story: " ++ s]
  | _ => []

/-- `StoryMatcher.create_story_embedding_text`: the labelled parts in fixed
order joined with `" | "`; any exception yields the error sentinel string. -/
def create_story_embedding_text (d : Doc) : String :=
  if symptomBad d || narrativeBad d then "Error creating embedding text"
  else
    String.intercalate " | "
      (fieldPart d "Challenge" "challenge" ++ fieldPart d "Experience" "experience" ++
        fieldPart d "Solution" "solution" ++ fieldPart d "Advice" "advice" ++
        symptomPart d ++ storyPart d)

/-- The matcher: `model` is `none` when both model loads failed, otherwise the
opaque encode function (`none` result = exception or `None` from the model). -/
structure StoryMatcher where
  model : Option (String → Option (List ℚ))

/-- `StoryMatcher.generate_embedding`: empty list models every failure return. -/
def generate_embedding (m : StoryMatcher) (text : String) : List ℚ :=
  match m.model with
  | none => []
  | some enc =>
    if text == "" || pyStripEmpty text then []
    else
      match enc text with
      | none => []
      | some v => v

/-- Dot product of two rational vectors. -/
def dotQ (a b : List ℚ) : ℚ := (List.zipWith (fun x y => x * y) a b).sum

/-- Squared Euclidean norm. -/
def sqNormQ (v : List ℚ) : ℚ := dotQ v v

/-- sklearn's `normalize` divisor: the Euclidean norm, with 1 substituted for
an exactly zero norm (`norms[norms == 0.0] = 1.0`). -/
noncomputable def safeNorm (v : List ℚ) : ℝ :=
  if sqNormQ v = 0 then 1 else Real.sqrt ((sqNormQ v : ℚ) : ℝ)

/-- The value `cosine_similarity([a], [b])[0][0]` computes when the shapes
agree. -/
noncomputable def cosVal (a b : List ℚ) : ℝ :=
  ((dotQ a b : ℚ) : ℝ) / (safeNorm a * safeNorm b)

/-- `cosine_similarity([a], [b])[0][0]`: `none` models the `ValueError` raised
on a dimension mismatch (caught by the caller and turned into a skip). -/
noncomputable def skCosine (a b : List ℚ) : Option ℝ :=
  if a.length = b.length then some (cosVal a b) else none

/-- One element of the list returned by the similarity search. -/
structure SimilarityResult where
  story : Doc
  similarity : ℝ
  match_explanation : String

/-- `StoryMatcher._explain_match` (the Python set intersection is modelled as
an order-preserving filter; `_extract_key_themes` never repeats a theme). -/
def explain_match (input_text : String) (story : Doc) : String :=
  let input_themes := extract_key_themes input_text
  let story_themes := extract_key_themes (create_story_embedding_text story)
  let common_themes := input_themes.filter (fun th => story_themes.contains th)
  if common_themes.isEmpty then "Similar emotional journey and experiences"
  else "Similar experiences with: " ++ String.intercalate ", " common_themes

/-- The Mongo filter `{"embedding": {"$exists": True, "$ne": None}}`. -/
def embPresent (d : Doc) : Bool :=
  match getVal d "embedding" with
  | none => false
  | some Val.vnull => false
  | some _ => true

/-- The Mongo filter `{"status": "approved"}`. -/
def statusApproved (d : Doc) : Bool := decide (getVal d "status" = some (Val.vstr "approved"))

/-- The full cursor filter of the similarity search. -/
def mongoCond (d : Doc) : Bool := embPresent d && statusApproved d

/-- `stories_collection.find({...})`. -/
def mongoFilter (l : List Doc) : List Doc := l.filter mongoCond

/-- The body of the `async for story in stories_cursor` loop: skip a falsy or
empty or non-numeric embedding, skip on an exception from `cosine_similarity`
(dimension mismatch), otherwise keep the story exactly when
`similarity >= min_similarity`. -/
noncomputable def scanStory (q : List ℚ) (t : ℝ) (story : Doc) : Option (Doc × ℝ) :=
  if !(pyTruthy (getVal story "embedding")) then none
  else
    match getVal story "embedding" with
    | some (Val.varr xs) =>
      if xs.isEmpty then none
      else
        match skCosine q xs with
        | some sim => if t ≤ sim then some (story, sim) else none
        | none => none
    | _ => none

/-- The `similarities` list built by the scan loop, in cursor order. -/
noncomputable def scanList (q : List ℚ) (t : ℝ) (stories : List Doc) : List (Doc × ℝ) :=
  (mongoFilter stories).filterMap (scanStory q t)

/-- The descending-score ordering used by
`similarities.sort(key=lambda x: x["similarity"], reverse=True)`. -/
def descR : Doc × ℝ → Doc × ℝ → Prop := fun a b => b.2 ≤ a.2

noncomputable instance : DecidableRel descR :=
  fun a b => inferInstanceAs (Decidable (b.2 ≤ a.2))

instance : IsTotal (Doc × ℝ) descR := ⟨fun a b => le_total b.2 a.2⟩

instance : IsTrans (Doc × ℝ) descR := ⟨fun _ _ _ hab hbc => le_trans hbc hab⟩

/-- Python's stable descending sort, modelled by the (stable) insertion sort. -/
noncomputable def sortDescBySim (l : List (Doc × ℝ)) : List (Doc × ℝ) :=
  List.insertionSort descR l

/-- The per-result formatting: copy the story, pop the embedding, stringify a
present `_id`, attach the match explanation. -/
noncomputable def formatResult (input_text : String) (item : Doc × ℝ) : SimilarityResult :=
  let story := popDoc item.1 "embedding"
  let story2 :=
    match getVal story "_id" with
    | some v => setVal story "_id" (Val.vstr (pyStr v))
    | none => story
  { story := story2, similarity := item.2, match_explanation := explain_match input_text story2 }

/-- `StoryMatcher.find_similar_stories_with_embeddings`. -/
noncomputable def find_similar_stories_with_embeddings (m : StoryMatcher) (input_text : String)
    (stories_collection : List Doc) (top_k : ℕ) (min_similarity : ℝ) : List SimilarityResult :=
  match m.model with
  | none => []
  | some enc =>
    match enc input_text with
    | none => []
    | some input_embedding =>
      ((sortDescBySim (scanList input_embedding min_similarity stories_collection)).take
          top_k).map
        (formatResult input_text)

/-- `story_service.create_story_with_embedding`. -/
def create_story_with_embedding (m : StoryMatcher) (story_data : Doc) : Doc :=
  match m.model with
  | none => story_data
  | some _ =>
    let story_text := create_story_embedding_text story_data
    if story_text == "" || story_text == "Error creating embedding text" then story_data
    else
      let embedding := generate_embedding m story_text
      if !embedding.isEmpty then setVal story_data "embedding" (Val.varr embedding)
      else setVal story_data "embedding" Val.vnull

/-- A candidate the spec calls well formed relative to the query vector: an
embedding that is present, non-null, a non-empty numeric array of the query's
length. -/
def wellFormedB (q : List ℚ) (d : Doc) : Bool :=
  match getVal d "embedding" with
  | none => false
  | some Val.vnull => false
  | some (Val.varr xs) => !xs.isEmpty && (xs.length == q.length)
  | some _ => true

/-- A stored embedding that is an all-zero numeric array. -/
def zeroEmbB (d : Doc) : Bool :=
  match getVal d "embedding" with
  | some (Val.varr xs) => xs.all (fun x => x == 0)
  | _ => false

/-- A field value that is absent or a string, the well-typed shape of the free
text fields of a story record. -/
def strOpt (v : Option Val) : Prop := v = none ∨ ∃ s, v = some (Val.vstr s)

/-- A field value that is absent or a list of strings, the well-typed shape of
the symptom tags. -/
def strsOpt (v : Option Val) : Prop := v = none ∨ ∃ xs, v = some (Val.vstrs xs)

/-- Modelled from the spec (section 4.2): the string value of a semantic field.
-/
def getStr (d : Doc) (k : String) : Option String :=
  match getVal d k with
  | some (Val.vstr s) => some s
  | _ => none

/-- Modelled from the spec (section 4.2): the symptom tag list. -/
def getStrList (d : Doc) (k : String) : Option (List String) :=
  match getVal d k with
  | some (Val.vstrs xs) => some xs
  | _ => none

/-- Modelled from the spec (section 4.2): a present non-empty field renders as
one `"<Label>: <value>"` part, an absent or empty field renders nothing. -/
def specField (label : String) (v : Option String) : List String :=
  match v with
  | some s => if s == "" then [] else [label ++ ": " ++ s]
  | none => []

/-- Modelled from the spec (section 4.2): symptom tags joined with a separator.
-/
def specSymptoms (v : Option (List String)) : List String :=
  match v with
  | some xs => if xs.isEmpty then [] else ["Symptoms: " ++ String.intercalate ", " xs]
  | none => []

/-- Modelled from the spec (section 4.2): the narrative, truncated to at most
500 characters with a truncation marker appended when cut. -/
def specNarrative (v : Option String) : List String :=
  match v with
  | some s =>
    if s == "" then []
    else if s.length > 500 then ["Story: " ++ (s.take 500 ++ "...")]
    else ["Story: " ++ s]
  | none => []

/-- Modelled from the spec (section 4.2): the document text composer, fields
in fixed order joined with `" | "`. -/
def composeSpec (d : Doc) : String :=
  String.intercalate " | "
    (specField "Challenge" (getStr d "challenge") ++
      specField "Experience" (getStr d "experience") ++
      specField "Solution" (getStr d "solution") ++ specField "Advice" (getStr d "advice") ++
      specSymptoms (getStrList d "key_symptoms") ++
      specNarrative (getStr d "generated_story"))

theorem getVal_cons (a : String) (b : Val) (d : Doc) (k : String) :
    getVal ((a, b) :: d) k = if k = a then some b else getVal d k := by
  by_cases h : k = a
  · subst h; simp [getVal, List.lookup]
  · have hb : (k == a) = false := beq_eq_false_iff_ne.mpr h
    simp [getVal, List.lookup, hb, h]

theorem popDoc_cons (a : String) (b : Val) (d : Doc) (k : String) :
    popDoc ((a, b) :: d) k = if a = k then popDoc d k else (a, b) :: popDoc d k := by
  by_cases h : a = k
  · simp [popDoc, List.filter, h]
  · have hb : (a == k) = false := beq_eq_false_iff_ne.mpr h
    simp [popDoc, List.filter, hb, h]

theorem getVal_popDoc_self (d : Doc) (k : String) : getVal (popDoc d k) k = none := by
  induction d with
  | nil => rfl
  | cons p rest ih =>
    obtain ⟨a, b⟩ := p
    rw [popDoc_cons]
    by_cases h : a = k
    · simpa [h] using ih
    · have hk : k ≠ a := fun hh => h hh.symm
      simp [h, getVal_cons, hk, ih]

theorem getVal_popDoc_ne (d : Doc) (k k2 : String) (h : k2 ≠ k) :
    getVal (popDoc d k) k2 = getVal d k2 := by
  induction d with
  | nil => rfl
  | cons p rest ih =>
    obtain ⟨a, b⟩ := p
    rw [popDoc_cons]
    by_cases hp : a = k
    · have hq : k2 ≠ a := by rw [hp]; exact h
      simp [hp, getVal_cons, hq, h, ih]
    · by_cases hq : k2 = a
      · simp [hp, getVal_cons, hq]
      · simp [hp, getVal_cons, hq, ih]

theorem getVal_mapSet_ne (d : Doc) (k k2 : String) (v : Val) (h : k2 ≠ k) :
    getVal (d.map (fun p => bif p.1 == k then (k, v) else p)) k2 = getVal d k2 := by
  induction d with
  | nil => rfl
  | cons p rest ih =>
    obtain ⟨a, b⟩ := p
    by_cases hp : a = k
    · subst hp
      simp only [List.map, beq_self_eq_true, cond_true]
      rw [getVal_cons, getVal_cons]
      simp [h, ih]
    · have hb : (a == k) = false := beq_eq_false_iff_ne.mpr hp
      simp only [List.map, hb, cond_false]
      rw [getVal_cons, getVal_cons]
      by_cases hq : k2 = a
      · simp [hq]
      · simp [hq, ih]

theorem getVal_mapSet_self (d : Doc) (k : String) (v : Val) (h : (getVal d k).isSome) :
    getVal (d.map (fun p => bif p.1 == k then (k, v) else p)) k = some v := by
  induction d with
  | nil => simp [getVal, List.lookup] at h
  | cons p rest ih =>
    obtain ⟨a, b⟩ := p
    by_cases hp : a = k
    · subst hp
      simp only [List.map, beq_self_eq_true, cond_true]
      simp [getVal_cons]
    · have hb : (a == k) = false := beq_eq_false_iff_ne.mpr hp
      have hk : k ≠ a := fun hh => hp hh.symm
      simp only [List.map, hb, cond_false]
      rw [getVal_cons]
      rw [getVal_cons] at h
      simp only [hk, if_false] at h ⊢
      exact ih h

theorem getVal_append_single_ne (d : Doc) (k k2 : String) (v : Val) (h : k2 ≠ k) :
    getVal (d ++ [(k, v)]) k2 = getVal d k2 := by
  induction d with
  | nil => simp [getVal_cons, h, getVal]
  | cons p rest ih =>
    obtain ⟨a, b⟩ := p
    rw [List.cons_append, getVal_cons, getVal_cons]
    by_cases hq : k2 = a
    · simp [hq]
    · simp [hq, ih]

theorem getVal_setVal_ne (d : Doc) (k k2 : String) (v : Val) (h : k2 ≠ k) :
    getVal (setVal d k v) k2 = getVal d k2 := by
  unfold setVal
  by_cases hs : (getVal d k).isSome
  · simp only [hs, if_true]
    exact getVal_mapSet_ne d k k2 v h
  · simp only [hs, if_false]
    exact getVal_append_single_ne d k k2 v h

theorem getVal_setVal_self (d : Doc) (k : String) (v : Val) (h : (getVal d k).isSome) :
    getVal (setVal d k v) k = some v := by
  unfold setVal
  simp only [h, if_true]
  exact getVal_mapSet_self d k v h

theorem dotQ_eq_zero_right (q xs : List ℚ) (h : ∀ x ∈ xs, x = 0) : dotQ q xs = 0 := by
  induction q generalizing xs with
  | nil => simp [dotQ]
  | cons a as ih =>
    cases xs with
    | nil => simp [dotQ]
    | cons b bs =>
      have hb : b = 0 := h b (List.mem_cons_self _ _)
      have hbs : ∀ x ∈ bs, x = 0 := fun x hx => h x (List.mem_cons_of_mem _ hx)
      simp only [dotQ, List.zipWith, List.sum_cons] at ih ⊢
      rw [hb, ih bs hbs]
      ring

theorem dotQ_eq_zero_left (q xs : List ℚ) (h : ∀ x ∈ q, x = 0) : dotQ q xs = 0 := by
  induction q generalizing xs with
  | nil => simp [dotQ]
  | cons a as ih =>
    cases xs with
    | nil => simp [dotQ]
    | cons b bs =>
      have ha : a = 0 := h a (List.mem_cons_self _ _)
      have has : ∀ x ∈ as, x = 0 := fun x hx => h x (List.mem_cons_of_mem _ hx)
      simp only [dotQ, List.zipWith, List.sum_cons] at ih ⊢
      rw [ha, ih bs has]
      ring

theorem cosVal_zero_of_zero (q xs : List ℚ) (h : (∀ x ∈ xs, x = 0) ∨ ∀ x ∈ q, x = 0) :
    cosVal q xs = 0 := by
  have hd : dotQ q xs = 0 := by
    cases h with
    | inl h => exact dotQ_eq_zero_right q xs h
    | inr h => exact dotQ_eq_zero_left q xs h
  unfold cosVal
  rw [hd]
  simp

theorem scanStory_eq_some (q : List ℚ) (t : ℝ) (d : Doc) (x : Doc × ℝ)
    (h : scanStory q t d = some x) : x.1 = d ∧ t ≤ x.2 := by
  unfold scanStory at h
  split at h
  · exact absurd h (by simp)
  · split at h
    · split at h
      · exact absurd h (by simp)
      · split at h
        · split at h
          · obtain ⟨rfl⟩ := Option.some.inj h
            constructor
            · rfl
            · assumption
          · exact absurd h (by simp)
        · exact absurd h (by simp)
    · exact absurd h (by simp)

theorem scanStory_mk (q : List ℚ) (t : ℝ) (d : Doc) (xs : List ℚ)
    (he : getVal d "embedding" = some (Val.varr xs)) (hne : xs ≠ [])
    (hlen : xs.length = q.length) :
    scanStory q t d = if t ≤ cosVal q xs then some (d, cosVal q xs) else none := by
  have hemp : xs.isEmpty = false := by
    cases xs with
    | nil => exact absurd rfl hne
    | cons a as => rfl
  unfold scanStory
  rw [he]
  have ht : pyTruthy (some (Val.varr xs)) = true := by simp [pyTruthy, pyTruthyV, hemp]
  rw [ht]
  simp only [Bool.not_true, Bool.false_eq_true, if_false, hemp]
  unfold skCosine
  rw [if_pos hlen.symm]

theorem scanStory_none_of_not_wellFormed (q : List ℚ) (t : ℝ) (d : Doc)
    (h : wellFormedB q d = false) : scanStory q t d = none := by
  unfold wellFormedB at h
  unfold scanStory
  cases hv : getVal d "embedding" with
  | none => simp [pyTruthy]
  | some v =>
    rw [hv] at h
    cases v with
    | vnull => simp [pyTruthy, pyTruthyV]
    | vstr s => simp at h
    | vnum qq => simp at h
    | vstrs l => simp at h
    | vid n => simp at h
    | varr xs =>
      by_cases hemp : xs.isEmpty
      · simp [pyTruthy, pyTruthyV, hemp]
      · have hemp2 : xs.isEmpty = false := by simpa using hemp
        simp only [hemp2, Bool.not_false, Bool.and_eq_false_iff] at h
        rcases h with h | h
        · simp at h
        · have hlen : q.length ≠ xs.length := by
            intro hh
            rw [beq_eq_false_iff_ne] at h
            exact h hh.symm
          simp [pyTruthy, pyTruthyV, hemp2, skCosine, hlen]

theorem scanStory_none_of_zeroEmb (q : List ℚ) (t : ℝ) (d : Doc) (ht : 0 < t)
    (hz : zeroEmbB d = true) : scanStory q t d = none := by
  unfold zeroEmbB at hz
  cases hv : getVal d "embedding" with
  | none => rw [hv] at hz; simp at hz
  | some v =>
    rw [hv] at hz
    cases v with
    | varr xs =>
      have hall : ∀ x ∈ xs, x = 0 := by
        intro x hx
        have := List.all_eq_true.mp hz x hx
        simpa using this
      by_cases hemp : xs.isEmpty
      · unfold scanStory
        rw [hv]
        simp [pyTruthy, pyTruthyV, hemp]
      · have hne : xs ≠ [] := by
          cases xs with
          | nil => simp at hemp
          | cons a as => simp
        by_cases hlen : xs.length = q.length
        · rw [scanStory_mk q t d xs hv hne hlen]
          rw [cosVal_zero_of_zero q xs (Or.inl hall)]
          rw [if_neg (not_le.mpr ht)]
        · apply scanStory_none_of_not_wellFormed
          unfold wellFormedB
          rw [hv]
          simp [hlen]
    | vnull => simp at hz
    | vstr s => simp at hz
    | vnum qq => simp at hz
    | vstrs l => simp at hz
    | vid n => simp at hz

theorem scanList_nil (q : List ℚ) (t : ℝ) : scanList q t [] = [] := rfl

theorem scanList_cons (q : List ℚ) (t : ℝ) (d : Doc) (l : List Doc) :
    scanList q t (d :: l) =
      (if mongoCond d = true then (scanStory q t d).toList else []) ++ scanList q t l := by
  unfold scanList mongoFilter
  by_cases h : mongoCond d = true
  · rw [List.filter_cons_of_pos h, if_pos h, List.filterMap_cons]
    cases hs : scanStory q t d with
    | none => simp
    | some x => simp
  · rw [List.filter_cons_of_neg (by simpa using h), if_neg h]
    simp

theorem scanList_filter_of_none (q : List ℚ) (t : ℝ) (p : Doc → Bool) (l : List Doc)
    (h : ∀ d ∈ l, p d = false → scanStory q t d = none) :
    scanList q t l = scanList q t (l.filter p) := by
  induction l with
  | nil => rfl
  | cons d rest ih =>
    have hrest : ∀ d2 ∈ rest, p d2 = false → scanStory q t d2 = none := fun d2 hd2 =>
      h d2 (List.mem_cons_of_mem _ hd2)
    by_cases hp : p d = true
    · rw [List.filter_cons_of_pos hp, scanList_cons, scanList_cons, ih hrest]
    · have hp2 : p d = false := by simpa using hp
      have hnone := h d (List.mem_cons_self _ _) hp2
      rw [List.filter_cons_of_neg (by simpa using hp), scanList_cons, hnone]
      simpa using ih hrest

theorem filter_orderedInsert_keyEq (s : ℝ) (x : Doc × ℝ) (l : List (Doc × ℝ)) :
    (List.orderedInsert descR x l).filter (fun y => decide (y.2 = s)) =
      ((x :: l).filter (fun y => decide (y.2 = s))) := by
  induction l with
  | nil => rfl
  | cons b bs ih =>
    simp only [List.orderedInsert]
    by_cases h : descR x b
    · rw [if_pos h]
    · rw [if_neg h]
      have hlt : x.2 < b.2 := lt_of_not_le h
      by_cases hx : x.2 = s
      · by_cases hb : b.2 = s
        · exact absurd (hx.trans hb.symm) (ne_of_lt hlt)
        · simp [List.filter_cons, hx, hb, ih]
      · by_cases hb : b.2 = s
        · simp [List.filter_cons, hx, hb, ih]
        · simp [List.filter_cons, hx, hb, ih]

theorem filter_sortDesc_keyEq (s : ℝ) (l : List (Doc × ℝ)) :
    (sortDescBySim l).filter (fun y => decide (y.2 = s)) =
      (l.filter (fun y => decide (y.2 = s))) := by
  induction l with
  | nil => rfl
  | cons x xs ih =>
    unfold sortDescBySim at ih ⊢
    simp only [List.insertionSort]
    rw [filter_orderedInsert_keyEq]
    simp only [List.filter_cons]
    rw [ih]

theorem mem_sortDesc (x : Doc × ℝ) (l : List (Doc × ℝ)) :
    x ∈ sortDescBySim l ↔ x ∈ l :=
  (List.perm_insertionSort descR l).mem_iff

theorem mem_find (m : StoryMatcher) (input : String) (stories : List Doc) (k : ℕ) (t : ℝ)
    (r : SimilarityResult)
    (hr : r ∈ find_similar_stories_with_embeddings m input stories k t) :
    ∃ enc q d s, m.model = some enc ∧ enc input = some q ∧ d ∈ stories ∧
      scanStory q t d = some (d, s) ∧ r = formatResult input (d, s) := by
  unfold find_similar_stories_with_embeddings at hr
  cases hm : m.model with
  | none => rw [hm] at hr; simp at hr
  | some enc =>
    simp only [hm] at hr
    cases hq : enc input with
    | none => simp only [hq] at hr; simp at hr
    | some q =>
      simp only [hq] at hr
      simp only [List.mem_map] at hr
      obtain ⟨⟨pd, ps⟩, hp, rfl⟩ := hr
      have hp2 : (pd, ps) ∈ sortDescBySim (scanList q t stories) := List.take_subset _ _ hp
      have hp3 : (pd, ps) ∈ scanList q t stories := (mem_sortDesc _ _).mp hp2
      unfold scanList at hp3
      obtain ⟨d, hd, hsd⟩ := List.mem_filterMap.mp hp3
      have hd2 : d ∈ stories := List.mem_of_mem_filter hd
      obtain ⟨h1, _⟩ := scanStory_eq_some q t d (pd, ps) hsd
      simp only at h1
      subst h1
      exact ⟨enc, q, pd, ps, rfl, hq, hd2, hsd, rfl⟩

theorem find_congr_scan (m : StoryMatcher) (enc : String → Option (List ℚ)) (input : String)
    (q : List ℚ) (s1 s2 : List Doc) (k : ℕ) (t : ℝ) (hm : m.model = some enc)
    (hq : enc input = some q) (hsc : scanList q t s1 = scanList q t s2) :
    find_similar_stories_with_embeddings m input s1 k t =
      find_similar_stories_with_embeddings m input s2 k t := by
  unfold find_similar_stories_with_embeddings
  simp only [hm, hq, hsc]

theorem find_eval_single (m : StoryMatcher) (enc : String → Option (List ℚ)) (input : String)
    (q : List ℚ) (d : Doc) (s : ℝ) (k : ℕ) (t : ℝ) (hmdl : m.model = some enc)
    (hq : enc input = some q) (hm : mongoCond d = true) (hs : scanStory q t d = some (d, s))
    (hk : k ≠ 0) :
    find_similar_stories_with_embeddings m input [d] k t = [formatResult input (d, s)] := by
  obtain ⟨k2, rfl⟩ : ∃ k2, k = k2 + 1 :=
    ⟨k - 1, (Nat.succ_pred_eq_of_pos (Nat.pos_of_ne_zero hk)).symm⟩
  have h1 : scanList q t [d] = [(d, s)] := by
    rw [scanList_cons, hm, if_pos rfl, hs, scanList_nil]
    rfl
  unfold find_similar_stories_with_embeddings
  simp only [hmdl, hq, h1]
  unfold sortDescBySim
  simp [List.insertionSort, List.orderedInsert, List.take]

theorem dotQ_one_one : dotQ [(1 : ℚ)] [(1 : ℚ)] = 1 := by
  norm_num [dotQ]

theorem sqNormQ_one : sqNormQ [(1 : ℚ)] = 1 := by
  norm_num [sqNormQ, dotQ]

theorem safeNorm_one : safeNorm [(1 : ℚ)] = 1 := by
  unfold safeNorm
  rw [sqNormQ_one]
  norm_num

theorem cosVal_one_one : cosVal [(1 : ℚ)] [(1 : ℚ)] = 1 := by
  unfold cosVal
  rw [dotQ_one_one, safeNorm_one]
  norm_num

theorem skCosine_one_one : skCosine [(1 : ℚ)] [(1 : ℚ)] = some 1 := by
  unfold skCosine
  rw [if_pos rfl, cosVal_one_one]

/-- C1: every similarity score in the list returned by the similarity search is
at least the supplied minimum similarity, the result list has at most `top_k`
elements, and the threshold comparison is inclusive: a candidate whose computed
score equals `min_similarity` exactly is retained by the scan. -/
theorem c1_threshold_and_topk :
    (∀ (m : StoryMatcher) (input : String) (stories : List Doc) (k : ℕ) (t : ℝ),
        (find_similar_stories_with_embeddings m input stories k t).length ≤ k ∧
          (find_similar_stories_with_embeddings m input stories k t).Forall
            (fun r => t ≤ r.similarity)) ∧
      ∀ (q : List ℚ) (t : ℝ) (d : Doc) (xs : List ℚ),
        getVal d "embedding" = some (Val.varr xs) → xs ≠ [] → skCosine q xs = some t →
          scanStory q t d = some (d, t) := by
  constructor
  · intro m input stories k t
    constructor
    · cases hm : m.model with
      | none =>
        unfold find_similar_stories_with_embeddings
        simp [hm]
      | some enc =>
        cases hq : enc input with
        | none =>
          unfold find_similar_stories_with_embeddings
          simp [hm, hq]
        | some q =>
          unfold find_similar_stories_with_embeddings
          simp only [hm, hq, List.length_map]
          exact List.length_take_le _ _
    · rw [List.forall_iff_forall_mem]
      intro r hr
      obtain ⟨enc, q, d, s, hm, hq, hd, hsd, rfl⟩ :=
        mem_find m input stories k t r hr
      obtain ⟨-, hts⟩ := scanStory_eq_some q t d (d, s) hsd
      exact hts
  · intro q t d xs he hne hcos
    have hlen : xs.length = q.length := by
      unfold skCosine at hcos
      by_cases h : q.length = xs.length
      · exact h.symm
      · rw [if_neg h] at hcos; simp at hcos
    have hval : cosVal q xs = t := by
      unfold skCosine at hcos
      rw [if_pos hlen.symm] at hcos
      exact Option.some.inj hcos
    rw [scanStory_mk q t d xs he hne hlen, hval, if_pos le_rfl]

/-- A concrete encode function for witnesses: every text embeds to `[1]`. -/
def encW : String → Option (List ℚ) := fun _ => some [1]

/-- A concrete matcher with a loaded model. -/
def mW : StoryMatcher := ⟨some encW⟩

/-- A concrete well-formed approved story document. -/
def dW : Doc := [("embedding", Val.varr [1]), ("status", Val.vstr "approved")]

/-- A concrete malformed candidate (null embedding). -/
def dBad : Doc := [("embedding", Val.vnull), ("status", Val.vstr "approved")]

/-- Witness for C1 at concrete inputs. -/
theorem c1_threshold_and_topk_witness :
    ((find_similar_stories_with_embeddings mW "query" [dW] 9 (1 / 10)).length ≤ 9 ∧
        (find_similar_stories_with_embeddings mW "query" [dW] 9 (1 / 10)).Forall
          (fun r => (1 / 10 : ℝ) ≤ r.similarity)) ∧
      scanStory [(1 : ℚ)] 1 dW = some (dW, 1) :=
  ⟨c1_threshold_and_topk.1 mW "query" [dW] 9 (1 / 10),
    c1_threshold_and_topk.2 [(1 : ℚ)] 1 dW [(1 : ℚ)] rfl (by decide) skCosine_one_one⟩

/-- C2: the similarity search returns its results in non-increasing score
order, and the stable sort keeps candidates of equal score in scan order (for
every score value, filtering the sorted scan list to that score yields exactly
the scan-order sublist); the embedding is a pure function, so repeated calls on
identical input return identical results. -/
theorem c2_ordering_and_stability :
    (∀ (m : StoryMatcher) (input : String) (stories : List Doc) (k : ℕ) (t : ℝ),
        (find_similar_stories_with_embeddings m input stories k t).Pairwise
          (fun a b => b.similarity ≤ a.similarity)) ∧
      ∀ (q : List ℚ) (t : ℝ) (stories : List Doc) (s : ℝ),
        (sortDescBySim (scanList q t stories)).filter (fun y => decide (y.2 = s)) =
          (scanList q t stories).filter (fun y => decide (y.2 = s)) := by
  constructor
  · intro m input stories k t
    cases hm : m.model with
    | none =>
      unfold find_similar_stories_with_embeddings
      simp [hm]
    | some enc =>
      cases hq : enc input with
      | none =>
        unfold find_similar_stories_with_embeddings
        simp [hm, hq]
      | some q =>
        unfold find_similar_stories_with_embeddings
        simp only [hm, hq]
        have hsorted : (sortDescBySim (scanList q t stories)).Pairwise descR :=
          List.sorted_insertionSort descR _
        have htake : ((sortDescBySim (scanList q t stories)).take k).Pairwise descR :=
          hsorted.sublist (List.take_sublist _ _)
        exact htake.map _ (fun a b hab => hab)
  · intro q t stories s
    exact filter_sortDesc_keyEq s _

/-- C3: candidates with an absent, null, empty or length-mismatched embedding
are skipped (removing them does not change the result), and every other
candidate with a numeric-array embedding is scored and retained exactly when
its score reaches the threshold; no exception aborts the scan (the embedding is
total). -/
theorem c3_malformed_skipped (m : StoryMatcher) (enc : String → Option (List ℚ))
    (input : String) (q : List ℚ) (stories : List Doc) (k : ℕ) (t : ℝ)
    (hm : m.model = some enc) (hq : enc input = some q) :
    find_similar_stories_with_embeddings m input stories k t =
        find_similar_stories_with_embeddings m input (stories.filter (wellFormedB q)) k t ∧
      ∀ (d : Doc) (xs : List ℚ), getVal d "embedding" = some (Val.varr xs) → xs ≠ [] →
        xs.length = q.length →
          scanStory q t d = if t ≤ cosVal q xs then some (d, cosVal q xs) else none := by
  constructor
  · apply find_congr_scan m enc input q _ _ k t hm hq
    apply scanList_filter_of_none
    intro d _ hp
    exact scanStory_none_of_not_wellFormed q t d hp
  · intro d xs he hne hlen
    exact scanStory_mk q t d xs he hne hlen

/-- Witness for C3 at concrete inputs. -/
theorem c3_malformed_skipped_witness :
    (find_similar_stories_with_embeddings mW "query" [dW, dBad] 9 (1 / 10) =
        find_similar_stories_with_embeddings mW "query"
          ([dW, dBad].filter (wellFormedB [(1 : ℚ)])) 9 (1 / 10)) ∧
      scanStory [(1 : ℚ)] (1 / 10) dW =
        if (1 / 10 : ℝ) ≤ cosVal [(1 : ℚ)] [(1 : ℚ)] then
          some (dW, cosVal [(1 : ℚ)] [(1 : ℚ)])
        else none :=
  ⟨(c3_malformed_skipped mW encW "query" [(1 : ℚ)] [dW, dBad] 9 (1 / 10) rfl rfl).1,
    (c3_malformed_skipped mW encW "query" [(1 : ℚ)] [dW, dBad] 9 (1 / 10) rfl rfl).2 dW
      [(1 : ℚ)] rfl (by decide) rfl⟩

/-- An encode function that always fails. -/
def encNone : String → Option (List ℚ) := fun _ => none

/-- C4 counterexample: the claim says an empty query text yields an empty
result list regardless of the candidate set, but the search has no empty-text
guard: with a model that returns a vector for the empty string and one
matching approved candidate, the call returns one result, not zero. -/
theorem c4_empty_query_counterexample :
    (find_similar_stories_with_embeddings mW "" [dW] 9 (1 / 10)).length = 1 := by
  have hs : scanStory [(1 : ℚ)] (1 / 10) dW = some (dW, 1) := by
    rw [scanStory_mk [(1 : ℚ)] (1 / 10) dW [(1 : ℚ)] rfl (by decide) rfl, cosVal_one_one,
      if_pos (by norm_num)]
  rw [find_eval_single mW encW "" [(1 : ℚ)] dW 1 9 (1 / 10) rfl rfl (by decide) hs
      (by decide)]
  rfl

/-- C4 amended: the search returns an empty list when the model is not loaded
or when encoding the query returns no vector; empty or whitespace-only query
text gets no special handling, so when the model yields a vector for it the
scan proceeds normally and can return results. -/
theorem c4_empty_query_amended :
    (∀ (input : String) (stories : List Doc) (k : ℕ) (t : ℝ),
        find_similar_stories_with_embeddings ⟨none⟩ input stories k t = []) ∧
      ∀ (enc : String → Option (List ℚ)) (input : String) (stories : List Doc) (k : ℕ)
        (t : ℝ), enc input = none →
          find_similar_stories_with_embeddings ⟨some enc⟩ input stories k t = [] := by
  constructor
  · intro input stories k t
    rfl
  · intro enc input stories k t h
    unfold find_similar_stories_with_embeddings
    simp only [h]

/-- Witness for the amended C4 at concrete inputs. -/
theorem c4_empty_query_amended_witness :
    find_similar_stories_with_embeddings ⟨none⟩ "" [dW] 9 (1 / 10) = [] ∧
      find_similar_stories_with_embeddings ⟨some encNone⟩ "" [dW] 9 (1 / 10) = [] :=
  ⟨c4_empty_query_amended.1 "" [dW] 9 (1 / 10),
    c4_empty_query_amended.2 encNone "" [dW] 9 (1 / 10) rfl⟩

theorem fieldPart_eq_specField (d : Doc) (label field : String)
    (h : strOpt (getVal d field)) :
    fieldPart d label field = specField label (getStr d field) := by
  unfold fieldPart specField getStr
  rcases h with h | ⟨s, h⟩
  · rw [h]
  · rw [h]
    by_cases hs : s = ""
    · simp [pyTruthyV, hs]
    · have hb : (s == "") = false := beq_eq_false_iff_ne.mpr hs
      simp [pyTruthyV, hb, pyStr]

theorem symptomPart_eq_specSymptoms (d : Doc) (h : strsOpt (getVal d "key_symptoms")) :
    symptomPart d = specSymptoms (getStrList d "key_symptoms") := by
  unfold symptomPart specSymptoms getStrList
  rcases h with h | ⟨xs, h⟩
  · rw [h]
  · rw [h]

theorem storyPart_eq_specNarrative (d : Doc) (h : strOpt (getVal d "generated_story")) :
    storyPart d = specNarrative (getStr d "generated_story") := by
  unfold storyPart specNarrative getStr
  rcases h with h | ⟨s, h⟩
  · rw [h]
  · rw [h]

theorem symptomBad_false (d : Doc) (h : strsOpt (getVal d "key_symptoms")) :
    symptomBad d = false := by
  unfold symptomBad
  rcases h with h | ⟨xs, h⟩ <;> rw [h]

theorem narrativeBad_false (d : Doc) (h : strOpt (getVal d "generated_story")) :
    narrativeBad d = false := by
  unfold narrativeBad
  rcases h with h | ⟨s, h⟩ <;> rw [h]

/-- C5: on a well-typed story record (text fields absent or strings, symptom
tags absent or a string list) the composed embedding text of the source equals
the spec-described composition: exactly the present non-empty fields, labelled,
in the fixed order challenge, experience, solution, advice, symptoms, narrative
(truncated to 500 characters with a marker when cut), joined with `" | "`; and
the output depends only on those six field values, so identical field values
give identical output. -/
theorem c5_composer_refines_spec (d d2 : Doc)
    (h1 : strOpt (getVal d "challenge")) (h2 : strOpt (getVal d "experience"))
    (h3 : strOpt (getVal d "solution")) (h4 : strOpt (getVal d "advice"))
    (h5 : strsOpt (getVal d "key_symptoms")) (h6 : strOpt (getVal d "generated_story"))
    (e1 : getVal d2 "challenge" = getVal d "challenge")
    (e2 : getVal d2 "experience" = getVal d "experience")
    (e3 : getVal d2 "solution" = getVal d "solution")
    (e4 : getVal d2 "advice" = getVal d "advice")
    (e5 : getVal d2 "key_symptoms" = getVal d "key_symptoms")
    (e6 : getVal d2 "generated_story" = getVal d "generated_story") :
    create_story_embedding_text d = composeSpec d ∧
      create_story_embedding_text d2 = create_story_embedding_text d := by
  constructor
  · unfold create_story_embedding_text composeSpec
    rw [symptomBad_false d h5, narrativeBad_false d h6]
    simp only [Bool.false_or, Bool.or_false, if_false]
    rw [fieldPart_eq_specField d "Challenge" "challenge" h1,
      fieldPart_eq_specField d "Experience" "experience" h2,
      fieldPart_eq_specField d "Solution" "solution" h3,
      fieldPart_eq_specField d "Advice" "advice" h4,
      symptomPart_eq_specSymptoms d h5, storyPart_eq_specNarrative d h6]
    simp
  · unfold create_story_embedding_text symptomBad narrativeBad fieldPart symptomPart storyPart
    rw [e1, e2, e3, e4, e5, e6]

/-- A concrete well-typed story record for the C5 witness. -/
def dC5 : Doc :=
  [("challenge", Val.vstr "sleep loss"), ("key_symptoms", Val.vstrs ["anxiety"]),
   ("generated_story", Val.vstr "A story.")]

/-- The same record with an extra unrelated field. -/
def dC5b : Doc := dC5 ++ [("status", Val.vstr "approved")]

/-- Witness for C5 at concrete inputs. -/
theorem c5_composer_refines_spec_witness :
    create_story_embedding_text dC5 = composeSpec dC5 ∧
      create_story_embedding_text dC5b = create_story_embedding_text dC5 :=
  c5_composer_refines_spec dC5 dC5b (Or.inr ⟨"sleep loss", rfl⟩) (Or.inl rfl) (Or.inl rfl)
    (Or.inl rfl) (Or.inr ⟨["anxiety"], rfl⟩) (Or.inr ⟨"A story.", rfl⟩) rfl rfl rfl rfl rfl rfl

/-- A concrete approved candidate whose stored vector is all zero. -/
def docZ : Doc := [("embedding", Val.varr [0]), ("status", Val.vstr "approved")]

/-- C6 counterexample: the claim says an all-zero stored vector is excluded
exactly as a length-mismatched candidate would be, but with threshold 0 the
zero-vector candidate is retained (sklearn scores it 0.0 and `0 >= 0` holds),
while a length-mismatched candidate is always skipped: the call returns one
result where the claim requires zero. -/
theorem c6_zero_vector_counterexample :
    (find_similar_stories_with_embeddings mW "x" [docZ] 9 0).length = 1 := by
  have hz : cosVal [(1 : ℚ)] [(0 : ℚ)] = 0 :=
    cosVal_zero_of_zero _ _ (Or.inl (by simp))
  have hs : scanStory [(1 : ℚ)] 0 docZ = some (docZ, 0) := by
    rw [scanStory_mk [(1 : ℚ)] 0 docZ [(0 : ℚ)] rfl (by decide) rfl, hz, if_pos le_rfl]
  rw [find_eval_single mW encW "x" [(1 : ℚ)] docZ 0 9 0 rfl rfl (by decide) hs (by decide)]
  rfl

/-- C6 amended: a zero stored vector (or zero query vector) is not skipped:
sklearn's zero-norm substitution makes the comparison score exactly 0, so the
candidate is retained iff `0 >= min_similarity`; whenever the threshold is
positive (as the 0.1 default is), all-zero candidates are excluded by the
threshold, while a length-mismatched candidate is skipped unconditionally. -/
theorem c6_zero_vector_amended :
    (∀ (q xs : List ℚ), xs.length = q.length → ((∀ x ∈ xs, x = 0) ∨ ∀ x ∈ q, x = 0) →
        skCosine q xs = some 0) ∧
      ∀ (m : StoryMatcher) (input : String) (stories : List Doc) (k : ℕ) (t : ℝ), 0 < t →
        find_similar_stories_with_embeddings m input stories k t =
          find_similar_stories_with_embeddings m input
            (stories.filter (fun d => !zeroEmbB d)) k t := by
  constructor
  · intro q xs hlen h
    unfold skCosine
    rw [if_pos hlen.symm, cosVal_zero_of_zero q xs h]
  · intro m input stories k t ht
    cases hm : m.model with
    | none =>
      unfold find_similar_stories_with_embeddings
      simp [hm]
    | some enc =>
      cases hq : enc input with
      | none =>
        unfold find_similar_stories_with_embeddings
        simp [hm, hq]
      | some q =>
        apply find_congr_scan m enc input q _ _ k t hm hq
        apply scanList_filter_of_none
        intro d _ hp
        have hz : zeroEmbB d = true := by simpa using hp
        exact scanStory_none_of_zeroEmb q t d ht hz

/-- Witness for the amended C6 at concrete inputs. -/
theorem c6_zero_vector_amended_witness :
    skCosine [(1 : ℚ)] [(0 : ℚ)] = some 0 ∧
      find_similar_stories_with_embeddings mW "x" [docZ] 9 (1 / 10) =
        find_similar_stories_with_embeddings mW "x"
          ([docZ].filter (fun d => !zeroEmbB d)) 9 (1 / 10) :=
  ⟨c6_zero_vector_amended.1 [(1 : ℚ)] [(0 : ℚ)] rfl (Or.inl (by simp)),
    c6_zero_vector_amended.2 mW "x" [docZ] 9 (1 / 10) (by norm_num)⟩

/-- A concrete story-field dict for the C7 counterexample. -/
def dC7 : Doc := [("challenge", Val.vstr "c")]

/-- C7 counterexample: the claim says every embedding failure leaves the story
fields with the embedding field set to null, but in the model-unavailable path
the source returns `story_data` untouched: the embedding key is absent, not
null. -/
theorem c7_embedding_absent_counterexample :
    create_story_with_embedding ⟨none⟩ dC7 = dC7 ∧
      getVal (create_story_with_embedding ⟨none⟩ dC7) "embedding" = none := by
  constructor <;> rfl

/-- C7 amended: a complete characterization of the ingestion pipeline — story
creation is never blocked and in every path fields other than `embedding` come
through untouched; the model-unavailable path and the composition-failure path
(composed text empty or the error sentinel) return the record untouched, with
the embedding key absent rather than null; the embedding field is set to null
exactly when the model is loaded, the composed text is valid and inference
returns an empty embedding, and to the generated vector when inference
succeeds. -/
theorem c7_ingestion_amended :
    (∀ (m : StoryMatcher) (d : Doc) (k2 : String), k2 ≠ "embedding" →
        getVal (create_story_with_embedding m d) k2 = getVal d k2) ∧
      (∀ d : Doc, create_story_with_embedding ⟨none⟩ d = d) ∧
      (∀ (m : StoryMatcher) (enc : String → Option (List ℚ)) (d : Doc), m.model = some enc →
          (create_story_embedding_text d = "" ∨
              create_story_embedding_text d = "Error creating embedding text") →
          create_story_with_embedding m d = d) ∧
      (∀ (m : StoryMatcher) (enc : String → Option (List ℚ)) (d : Doc), m.model = some enc →
          create_story_embedding_text d ≠ "" →
          create_story_embedding_text d ≠ "Error creating embedding text" →
          generate_embedding m (create_story_embedding_text d) = [] →
          create_story_with_embedding m d = setVal d "embedding" Val.vnull) ∧
      ∀ (m : StoryMatcher) (enc : String → Option (List ℚ)) (d : Doc), m.model = some enc →
        create_story_embedding_text d ≠ "" →
        create_story_embedding_text d ≠ "Error creating embedding text" →
        generate_embedding m (create_story_embedding_text d) ≠ [] →
        create_story_with_embedding m d =
          setVal d "embedding"
            (Val.varr (generate_embedding m (create_story_embedding_text d))) := by
  have hmodel_none : ∀ (m : StoryMatcher) (d : Doc), m.model = none →
      create_story_with_embedding m d = d := by
    intro m d hm
    unfold create_story_with_embedding
    simp [hm]
  have hcomp_fail : ∀ (m : StoryMatcher) (enc : String → Option (List ℚ)) (d : Doc),
      m.model = some enc →
      (create_story_embedding_text d = "" ∨
        create_story_embedding_text d = "Error creating embedding text") →
      create_story_with_embedding m d = d := by
    intro m enc d hm hc
    unfold create_story_with_embedding
    rcases hc with h | h
    · have hb : (create_story_embedding_text d == "") = true := by
        rw [h]
        exact beq_self_eq_true ""
      simp only [hm, hb, Bool.true_or, if_true]
    · have hb : (create_story_embedding_text d ==
          "Error creating embedding text") = true := by
        rw [h]
        exact beq_self_eq_true "Error creating embedding text"
      simp only [hm, hb, Bool.or_true, if_true]
  have hinfer_emp : ∀ (m : StoryMatcher) (enc : String → Option (List ℚ)) (d : Doc),
      m.model = some enc → create_story_embedding_text d ≠ "" →
      create_story_embedding_text d ≠ "Error creating embedding text" →
      generate_embedding m (create_story_embedding_text d) = [] →
      create_story_with_embedding m d = setVal d "embedding" Val.vnull := by
    intro m enc d hm h1 h2 h3
    have hb1 : (create_story_embedding_text d == "") = false := beq_eq_false_iff_ne.mpr h1
    have hb2 : (create_story_embedding_text d == "Error creating embedding text") = false :=
      beq_eq_false_iff_ne.mpr h2
    unfold create_story_with_embedding
    simp only [hm, hb1, hb2, Bool.or_self, Bool.false_eq_true, if_false, h3]
    simp [List.isEmpty]
  have hinfer_ok : ∀ (m : StoryMatcher) (enc : String → Option (List ℚ)) (d : Doc),
      m.model = some enc → create_story_embedding_text d ≠ "" →
      create_story_embedding_text d ≠ "Error creating embedding text" →
      generate_embedding m (create_story_embedding_text d) ≠ [] →
      create_story_with_embedding m d =
        setVal d "embedding"
          (Val.varr (generate_embedding m (create_story_embedding_text d))) := by
    intro m enc d hm h1 h2 h3
    have hb1 : (create_story_embedding_text d == "") = false := beq_eq_false_iff_ne.mpr h1
    have hb2 : (create_story_embedding_text d == "Error creating embedding text") = false :=
      beq_eq_false_iff_ne.mpr h2
    have hne : (generate_embedding m (create_story_embedding_text d)).isEmpty = false := by
      cases hgen : generate_embedding m (create_story_embedding_text d) with
      | nil => exact absurd hgen h3
      | cons a l => rfl
    unfold create_story_with_embedding
    simp only [hm, hb1, hb2, Bool.or_self, Bool.false_eq_true, if_false, hne,
      Bool.not_false, if_true]
  refine ⟨?_, fun d => rfl, hcomp_fail, hinfer_emp, hinfer_ok⟩
  intro m d k2 hk2
  cases hm : m.model with
  | none => rw [hmodel_none m d hm]
  | some enc =>
    by_cases hc : create_story_embedding_text d = "" ∨
        create_story_embedding_text d = "Error creating embedding text"
    · rw [hcomp_fail m enc d hm hc]
    · push_neg at hc
      obtain ⟨hc1, hc2⟩ := hc
      by_cases hg : generate_embedding m (create_story_embedding_text d) = []
      · rw [hinfer_emp m enc d hm hc1 hc2 hg]
        exact getVal_setVal_ne d "embedding" k2 _ hk2
      · rw [hinfer_ok m enc d hm hc1 hc2 hg]
        exact getVal_setVal_ne d "embedding" k2 _ hk2

/-- Witness for the amended C7, exercising each of the five conjuncts at a
concrete input: the frame condition, the model-unavailable path, the
composition-failure path (the empty record composes to the empty string), the
inference-empty path and the inference-success path. -/
theorem c7_ingestion_amended_witness :
    getVal (create_story_with_embedding ⟨some encNone⟩ dC7) "challenge" =
        getVal dC7 "challenge" ∧
      create_story_with_embedding ⟨none⟩ dC7 = dC7 ∧
      create_story_with_embedding ⟨some encNone⟩ ([] : Doc) = ([] : Doc) ∧
      create_story_with_embedding ⟨some encNone⟩ dC7 = setVal dC7 "embedding" Val.vnull ∧
      create_story_with_embedding ⟨some encW⟩ dC7 =
        setVal dC7 "embedding"
          (Val.varr (generate_embedding ⟨some encW⟩ (create_story_embedding_text dC7))) :=
  ⟨c7_ingestion_amended.1 ⟨some encNone⟩ dC7 "challenge" (by decide),
    c7_ingestion_amended.2.1 dC7,
    c7_ingestion_amended.2.2.1 ⟨some encNone⟩ encNone [] rfl (Or.inl rfl),
    c7_ingestion_amended.2.2.2.1 ⟨some encNone⟩ encNone dC7 rfl (by decide) (by decide) rfl,
    c7_ingestion_amended.2.2.2.2 ⟨some encW⟩ encW dC7 rfl (by decide) (by decide) (by decide)⟩

theorem formatResult_story (input : String) (p : Doc × ℝ) :
    (formatResult input p).story =
      match getVal (popDoc p.1 "embedding") "_id" with
      | some v => setVal (popDoc p.1 "embedding") "_id" (Val.vstr (pyStr v))
      | none => popDoc p.1 "embedding" := rfl

/-- C8 amended: every returned story payload comes from a stored document with
the embedding field stripped, the `_id` field replaced by its string conversion
(absent when absent, so the raw identifier never reaches the caller), and every
other field carried through unchanged. -/
theorem c8_strip_embedding_amended :
    ∀ (m : StoryMatcher) (input : String) (stories : List Doc) (k : ℕ) (t : ℝ),
      (find_similar_stories_with_embeddings m input stories k t).Forall (fun r =>
        getVal r.story "embedding" = none ∧
          ∃ d, d ∈ stories ∧
            getVal r.story "_id" = (getVal d "_id").map (fun v => Val.vstr (pyStr v)) ∧
            ∀ k2, k2 ≠ "embedding" → k2 ≠ "_id" →
              getVal r.story k2 = getVal d k2) := by
  intro m input stories k t
  rw [List.forall_iff_forall_mem]
  intro r hr
  obtain ⟨enc, q, d, s, hm, hq, hd, hsd, rfl⟩ := mem_find m input stories k t r hr
  rw [formatResult_story]
  have hpop : getVal (popDoc d "embedding") "_id" = getVal d "_id" :=
    getVal_popDoc_ne d "embedding" "_id" (by decide)
  cases hid : getVal (popDoc d "embedding") "_id" with
  | none =>
    refine ⟨getVal_popDoc_self d "embedding", d, hd, ?_, ?_⟩
    · rw [hid, ← hpop, hid]
      rfl
    · intro k2 hk2 _
      exact getVal_popDoc_ne d "embedding" k2 hk2
  | some v =>
    refine ⟨?_, d, hd, ?_, ?_⟩
    · rw [getVal_setVal_ne _ "_id" "embedding" _ (by decide)]
      exact getVal_popDoc_self d "embedding"
    · rw [← hpop, hid, getVal_setVal_self _ "_id" _ (by rw [hid]; rfl)]
      rfl
    · intro k2 hk2 hk2b
      rw [getVal_setVal_ne _ "_id" k2 _ hk2b]
      exact getVal_popDoc_ne d "embedding" k2 hk2

/-- A concrete approved candidate carrying an opaque (non-string) id. -/
def d8 : Doc := [("_id", Val.vid 7), ("embedding", Val.varr [1]), ("status", Val.vstr "approved")]

/-- C8 counterexample: the claim says every field other than the stripped
embedding is carried through unchanged, but the source replaces `_id` by its
string conversion: the stored id `vid 7` comes back as the string `"7"`. -/
theorem c8_strip_embedding_counterexample :
    ((find_similar_stories_with_embeddings mW "x" [d8] 9 (1 / 10)).map
        (fun r => getVal r.story "_id") = [some (Val.vstr "7")]) ∧
      getVal d8 "_id" = some (Val.vid 7) := by
  constructor
  · have hs : scanStory [(1 : ℚ)] (1 / 10) d8 = some (d8, 1) := by
      rw [scanStory_mk [(1 : ℚ)] (1 / 10) d8 [(1 : ℚ)] rfl (by decide) rfl, cosVal_one_one,
        if_pos (by norm_num)]
    rw [find_eval_single mW encW "x" [(1 : ℚ)] d8 1 9 (1 / 10) rfl rfl (by decide) hs
        (by decide)]
    simp only [List.map_cons, List.map_nil, formatResult_story]
    decide
  · rfl

/-- The example text of the spec scenario, written without a literal
apostrophe character. -/
def c9text : String :=
  "I haven" ++ String.singleton (Char.ofNat 39) ++ "t slept in days and feel so alone"

/-- C9 counterexample: the claim says theme extraction on the example text
yields at least the themes sleep and isolation, but "slept" contains none of
the sleep keywords (sleep, tired, exhausted, insomnia, sleepless, fatigue), so
the sleep theme is absent. -/
theorem c9_sleep_theme_counterexample : "sleep" ∉ extract_key_themes c9text := by decide

/-- C9 amended: theme extraction on the example text yields exactly
`["isolation"]` (only the keyword "alone" matches); in general a theme is
emitted iff one of its keywords occurs as a substring of the lower-cased input
text. -/
theorem c9_theme_extraction_amended :
    extract_key_themes c9text = ["isolation"] ∧
      ∀ (text th : String),
        th ∈ extract_key_themes text ↔
          ∃ kws, (th, kws) ∈ theme_keywords ∧
            kws.any (fun kw => pyInStr kw (pyLower text)) = true := by
  constructor
  · decide
  · intro text th
    unfold extract_key_themes
    simp only [List.mem_map, List.mem_filter]
    constructor
    · rintro ⟨⟨th2, kws⟩, ⟨hmem, hany⟩, rfl⟩
      exact ⟨kws, hmem, hany⟩
    · rintro ⟨kws, hmem, hany⟩
      exact ⟨(th, kws), ⟨hmem, hany⟩, rfl⟩

/-- C10: for every result of the similarity search there is a stored document
such that the returned `_id` is exactly the string conversion of the stored
`_id` when present (and absent when absent): callers never receive the raw
identifier value. -/
theorem c10_id_stringified :
    ∀ (m : StoryMatcher) (input : String) (stories : List Doc) (k : ℕ) (t : ℝ),
      (find_similar_stories_with_embeddings m input stories k t).Forall (fun r =>
        ∃ d, d ∈ stories ∧
          getVal r.story "_id" = (getVal d "_id").map (fun v => Val.vstr (pyStr v))) := by
  intro m input stories k t
  rw [List.forall_iff_forall_mem]
  intro r hr
  obtain ⟨enc, q, d, s, hm, hq, hd, hsd, rfl⟩ := mem_find m input stories k t r hr
  rw [formatResult_story]
  have hpop : getVal (popDoc d "embedding") "_id" = getVal d "_id" :=
    getVal_popDoc_ne d "embedding" "_id" (by decide)
  cases hid : getVal (popDoc d "embedding") "_id" with
  | none =>
    refine ⟨d, hd, ?_⟩
    rw [hid, ← hpop, hid]
    rfl
  | some v =>
    refine ⟨d, hd, ?_⟩
    rw [← hpop, hid]
    rw [getVal_setVal_self _ "_id" _ (by rw [hid]; rfl)]
    rfl

/-- Witness for C2 at concrete inputs. -/
theorem c2_ordering_and_stability_witness :
    (find_similar_stories_with_embeddings mW "query" [dW, docZ] 9 (1 / 10)).Pairwise
        (fun a b => b.similarity ≤ a.similarity) ∧
      (sortDescBySim (scanList [(1 : ℚ)] (1 / 10) [dW, docZ])).filter
          (fun y => decide (y.2 = (1 : ℝ))) =
        (scanList [(1 : ℚ)] (1 / 10) [dW, docZ]).filter (fun y => decide (y.2 = (1 : ℝ))) :=
  ⟨c2_ordering_and_stability.1 mW "query" [dW, docZ] 9 (1 / 10),
    c2_ordering_and_stability.2 [(1 : ℚ)] (1 / 10) [dW, docZ] 1⟩

/-- Witness for the amended C8 at concrete inputs. -/
theorem c8_strip_embedding_amended_witness :
    (find_similar_stories_with_embeddings mW "x" [d8] 9 (1 / 10)).Forall (fun r =>
      getVal r.story "embedding" = none ∧
        ∃ d, d ∈ [d8] ∧
          getVal r.story "_id" = (getVal d "_id").map (fun v => Val.vstr (pyStr v)) ∧
          ∀ k2, k2 ≠ "embedding" → k2 ≠ "_id" →
            getVal r.story k2 = getVal d k2) :=
  c8_strip_embedding_amended mW "x" [d8] 9 (1 / 10)

/-- Witness for C10 at concrete inputs. -/
theorem c10_id_stringified_witness :
    (find_similar_stories_with_embeddings mW "x" [d8] 9 (1 / 10)).Forall (fun r =>
      ∃ d, d ∈ [d8] ∧
        getVal r.story "_id" = (getVal d "_id").map (fun v => Val.vstr (pyStr v))) :=
  c10_id_stringified mW "x" [d8] 9 (1 / 10)
